import Mathlib

/-!
Verification of the `dioad/util` polling and string-masking core.

The Go source is shallowly embedded as follows.

* The impure probe `condition func() (bool, error)` of `waitUntil`
  (src/wait.go) is modelled as a function `Nat → Bool × Option ε` giving
  the outcome of the n-th invocation (n = 1 is the immediate first try).
* `context.Context` cancellation is modelled by an oracle `doneBefore n`
  that is `true` exactly when the `select` in the retry loop observes
  `ctx.Done()` before the interval timer preceding attempt `n` fires,
  together with the value `reason` reported by `ctx.Err()`.
* The errors produced with `fmt.Errorf` are modelled by an inductive type
  recording which format string was used and the wrapped (`%w`) payload;
  `WaitError.message` renders the exact Go message text.
* Go `uint` arithmetic in `MaskedString.String` (src/string.go) is 64-bit
  and wraps; it is modelled on `Nat` with explicit reduction modulo 2^64.
  Panics (negative `strings.Repeat` count, out-of-range string slicing)
  are modelled by returning `none`.
* Go strings are modelled as `List Char` (sequences of Unicode scalar
  values); `len`, slicing and concatenation become `List.length`,
  `take`/`drop` and `++`.
-/

/-- Payload-carrying errors returned by `waitUntil` (src/wait.go), one
constructor per `fmt.Errorf` call site, each recording the `%w`-wrapped
cause where the source wraps one. -/
inductive WaitError (ε : Type) where
  /-- Models `fmt.Errorf("condition failed with error: %w", err)`. -/
  | condFailed (e : ε)
  /-- Models `fmt.Errorf("condition failed with error on try %d: %w", tries+1, err)`. -/
  | condFailedOnTry (n : Nat) (e : ε)
  /-- Models `fmt.Errorf("waiting canceled: %w", ctx.Err())`. -/
  | canceled (reason : ε)
  /-- Models `fmt.Errorf("condition not met after %d tries", maxTries)`. -/
  | notMet (tries : Nat)
  deriving DecidableEq

/-- The exact Go error message text produced for each `WaitError`, given a
renderer for the wrapped payload. -/
def WaitError.message (r : ε → String) : WaitError ε → String
  | .condFailed e => "condition failed with error: " ++ r e
  | .condFailedOnTry n e =>
      "condition failed with error on try " ++ Nat.repr n ++ ": " ++ r e
  | .canceled reason => "waiting canceled: " ++ r reason
  | .notMet tries => "condition not met after " ++ Nat.repr tries ++ " tries"

/-- Model of a `context.Context` as observed by the `select` statement of
`waitUntil`: `doneBefore n` says whether `ctx.Done()` is ready strictly
before the interval timer preceding attempt `n` fires, and `reason` is the
value of `ctx.Err()` once done. -/
structure Ctx (ε : Type) where
  doneBefore : Nat → Bool
  reason : ε

/-- The retry loop of `waitUntil` (src/wait.go lines 40-56):
`for tries = 1; tries < maxTries; tries++ { select ... }`, reindexed on the
remaining iteration count `rem = maxTries - tries` so that the recursion is
structural. Returns the number of condition invocations performed inside the
loop together with the result (`none` = success). -/
def waitLoop (ctx : Ctx ε) (condition : Nat → Bool × Option ε) (maxTries : Nat) :
    Nat → Nat → Nat × Option (WaitError ε)
  | 0, _ => (0, some (.notMet maxTries))
  | rem + 1, tries =>
    if ctx.doneBefore (tries + 1) then
      (0, some (.canceled ctx.reason))
    else
      match condition (tries + 1) with
      | (_, some e) => (1, some (.condFailedOnTry (tries + 1) e))
      | (true, none) => (1, none)
      | (false, none) =>
        let r := waitLoop ctx condition maxTries rem (tries + 1)
        (r.1 + 1, r.2)

/-- Embedding of `waitUntil` (src/wait.go lines 22-59). Returns the total number of
condition invocations together with the result (`none` = success). The
`interval` argument only affects timing, never the returned value, and is
threaded for signature fidelity. -/
def waitUntil (ctx : Ctx ε) (_interval : Nat) (maxTries : Nat)
    (condition : Nat → Bool × Option ε) : Nat × Option (WaitError ε) :=
  let maxTries := if maxTries = 0 then 1 else maxTries
  match condition 1 with
  | (_, some e) => (1, some (.condFailed e))
  | (true, none) => (1, none)
  | (false, none) =>
    let r := waitLoop ctx condition maxTries (maxTries - 1) 1
    (r.1 + 1, r.2)

/-- Embedding of `WaitFor` (src/wait.go lines 83-87): boolean probe adapted into
`waitUntil` via `func() (bool, error) { return op(), nil }`. -/
def WaitFor (ctx : Ctx ε) (interval : Nat) (maxTries : Nat) (op : Nat → Bool) :
    Nat × Option (WaitError ε) :=
  waitUntil ctx interval maxTries (fun n => (op n, none))

/-- Embedding of `WaitForNilError` (src/wait.go lines 111-119): error-nil probe; a non-nil
probe error means "continue waiting" and is never propagated. -/
def WaitForNilError (ctx : Ctx ε) (interval : Nat) (maxTries : Nat)
    (op : Nat → Option ε) : Nat × Option (WaitError ε) :=
  waitUntil ctx interval maxTries (fun n =>
    match op n with
    | some _ => (false, none)
    | none => (true, none))

/-- The condition closure built by `WaitForReturn` (src/wait.go lines
149-159) from a value-returning probe: a probe error or a nil value both
mean "continue waiting"; success requires a non-nil value and a nil error. -/
def returnCondition (op : Nat → Option α × Option ε) (n : Nat) : Bool × Option ε :=
  match op n with
  | (_, some _) => (false, none)
  | (none, none) => (false, none)
  | (some _, none) => (true, none)

/-- Models the `fmt.Errorf("failed to get result: %w", err)` wrapping applied by
`WaitForReturn` on failure (src/wait.go line 162). -/
inductive ReturnError (ε : Type) where
  | failedToGet (e : WaitError ε)
  deriving DecidableEq

/-- Go message for `ReturnError`. -/
def ReturnError.message (r : ε → String) : ReturnError ε → String
  | .failedToGet e => "failed to get result: " ++ e.message r

/-- Embedding of `WaitForReturn` (src/wait.go lines 146-166). The Go closure writes each
probe value into the captured variable `result`; since invocations happen in
order 1, 2, ..., the final value of `result` is the value produced by the
last invocation, whose index is the returned invocation count. -/
def WaitForReturn (ctx : Ctx ε) (interval : Nat) (maxTries : Nat)
    (op : Nat → Option α × Option ε) : Nat × Except (ReturnError ε) (Option α) :=
  let r := waitUntil ctx interval maxTries (returnCondition op)
  match r.2 with
  | some e => (r.1, Except.error (.failedToGet e))
  | none => (r.1, Except.ok (op r.1).1)

/-- Result of `WaitForFiles`: either the argument-validation error
`fmt.Errorf("no files specified")` or an error bubbled up from `WaitFor`. -/
inductive FileWaitError (ε : Type) where
  | noFiles
  | wait (e : WaitError ε)
  deriving DecidableEq

/-- Go message for `FileWaitError`. -/
def FileWaitError.message (r : ε → String) : FileWaitError ε → String
  | .noFiles => "no files specified"
  | .wait e => e.message r

/-- Embedding of `FilesExist` (src/unnamed/part_001, current revision): true when every
listed file exists; an empty list yields true. The filesystem is the
external collaborator `exist : String → Bool` (one `os.Stat` pass). -/
def FilesExist (exist : String → Bool) (files : List String) : Bool :=
  if files.isEmpty then true
  else files.all exist

/-- Embedding of `WaitForFiles` (src/unnamed/part_001, current revision): rejects an
empty path set with "no files specified", otherwise polls `FilesExist` via
`WaitFor`. The filesystem as observed by attempt `n` is `fs n`. -/
def WaitForFiles (ctx : Ctx ε) (interval : Nat) (max : Nat)
    (files : List String) (fs : Nat → String → Bool) :
    Nat × Option (FileWaitError ε) :=
  if files.isEmpty then
    (0, some .noFiles)
  else
    let r := WaitFor ctx interval max (fun n => FilesExist (fs n) files)
    (r.1, r.2.map .wait)

/-- Go's 64-bit `uint` modulus. -/
def uintMod : Nat := 2 ^ 64

/-- Go `uint` addition (wraps modulo 2^64). -/
def uadd (a b : Nat) : Nat := (a + b) % uintMod

/-- Go `uint` subtraction (wraps modulo 2^64); for `b ≤ 2^64` this is
`a - b` when `a ≥ b` and `a + 2^64 - b` (underflow) otherwise. -/
def usub (a b : Nat) : Nat := (a + uintMod - b) % uintMod

/-- Go conversion `int(n)` of a `uint` value `n < 2^64`: values at or above
2^63 reinterpret as negative two's-complement integers. -/
def intOfUint (n : Nat) : Int :=
  if n < 2 ^ 63 then (n : Int) else (n : Int) - (uintMod : Int)

/-- Go `strings.Repeat(pat, count)` with an `int` count: panics (`none`) on
a negative count, otherwise `count` copies of `pat` concatenated. -/
def goRepeat (pat : List Char) (count : Int) : Option (List Char) :=
  if count < 0 then none else some (List.flatten (List.replicate count.toNat pat))

/-- Embedding of `MaskedConfig` (src/string.go lines 53-68). `PrefixCount`, `SuffixCount`,
`MinMask` and `ObfuscatedLength` are Go `uint` values (< 2^64); `Mask` is a
Go string. -/
structure MaskedConfig where
  PrefixCount : Nat
  SuffixCount : Nat
  Mask : List Char
  MinMask : Nat
  ObfuscateLength : Bool
  ObfuscatedLength : Nat
  deriving DecidableEq

/-- Embedding of `MaskedString` (src/string.go lines 33-36): the embedded `string` field
plus a `Config`. -/
structure MaskedString where
  str : List Char
  Config : MaskedConfig
  deriving DecidableEq

/-- Embedding of `UnmaskedString` (src/string.go lines 137-139). -/
def MaskedString.UnmaskedString (s : MaskedString) : List Char := s.str

/-- The effective length used by `MaskedString.String`
(src/string.go lines 74-77). -/
def MaskedString.effectiveLength (s : MaskedString) : Nat :=
  if s.Config.ObfuscateLength then s.Config.ObfuscatedLength else s.str.length

/-- The `prefixCount` variable after the individual clamp of src/string.go lines 80-83. -/
def MaskedString.clampedPrefixCount (s : MaskedString) : Nat :=
  if s.Config.PrefixCount > s.effectiveLength then 0 else s.Config.PrefixCount

/-- The `suffixCount` variable after the individual clamp of src/string.go lines 85-88. -/
def MaskedString.clampedSuffixCount (s : MaskedString) : Nat :=
  if s.Config.SuffixCount > s.effectiveLength then 0 else s.Config.SuffixCount

/-- The `totalUnmasked` value (src/string.go line 91), Go `uint` addition. -/
def MaskedString.totalUnmasked (s : MaskedString) : Nat :=
  uadd s.clampedPrefixCount s.clampedSuffixCount

/-- The `charsToMask` value (src/string.go line 92), Go `uint` subtraction: underflows
(wraps to a huge value) when `totalUnmasked > effectiveLength`. -/
def MaskedString.charsToMask (s : MaskedString) : Nat :=
  usub s.effectiveLength s.totalUnmasked

/-- The value of the `prefixCount` variable after the two suppression steps
of src/string.go: the minimum-mask gate (lines 95-98) and the full-exposure
guard against the true length (lines 101-104), both of which read the
`totalUnmasked`/`charsToMask` values computed at lines 91-92. -/
def MaskedString.revealPrefixCount (s : MaskedString) : Nat :=
  let p := if s.Config.MinMask > 0 ∧ s.Config.MinMask > s.charsToMask then 0
           else s.clampedPrefixCount
  if s.totalUnmasked ≥ s.str.length then 0 else p

/-- The value of the `suffixCount` variable after the two suppression steps
of src/string.go lines 95-104 (see `MaskedString.revealPrefixCount`). -/
def MaskedString.revealSuffixCount (s : MaskedString) : Nat :=
  let q := if s.Config.MinMask > 0 ∧ s.Config.MinMask > s.charsToMask then 0
           else s.clampedSuffixCount
  if s.totalUnmasked ≥ s.str.length then 0 else q

/-- Embedding of `MaskedString.String` (src/string.go lines 72-133). Returns `none` when
the Go method panics: a string-slice index out of range, or a negative
`strings.Repeat` count after `paddingCount` underflows. -/
def MaskedString.String (s : MaskedString) : Option (List Char) :=
  let prefixCount := s.revealPrefixCount
  let suffixCount := s.revealSuffixCount
  -- lines 107-110: `prefix = s.string[:prefixCount]`, panics if out of range
  let pre? : Option (List Char) :=
    if prefixCount > 0 then
      if prefixCount ≤ s.str.length then some (s.str.take prefixCount) else none
    else some []
  -- lines 113-117: `suffix = s.string[len-suffixCount:]`, panics if out of range
  let suf? : Option (List Char) :=
    if suffixCount > 0 then
      if suffixCount ≤ s.str.length then some (s.str.drop (s.str.length - suffixCount)) else none
    else some []
  match pre?, suf? with
  | some pre, some suf =>
    -- line 120: `paddingCount := effectiveLength - (prefixCount + suffixCount)`
    let paddingCount := usub s.effectiveLength (uadd prefixCount suffixCount)
    -- lines 123-126: default mask character
    let maskChar := if s.Config.Mask = [] then ['*'] else s.Config.Mask
    -- lines 129-132: `strings.Repeat` then concatenation
    (goRepeat maskChar (intOfUint paddingCount)).map (fun mask => pre ++ mask ++ suf)
  | _, _ => none

/-- Lowercase hexadecimal digit, as produced by Go's `encoding/json`
(`hex = "0123456789abcdef"`). -/
def hexDigit (n : Nat) : Char :=
  if n < 10 then Char.ofNat ('0'.toNat + n) else Char.ofNat ('a'.toNat + (n - 10))

/-- Value of a hexadecimal digit, as accepted by Go's `encoding/json`
unquoting (`0-9`, `a-f`, `A-F`). -/
def hexVal (c : Char) : Option Nat :=
  if '0' ≤ c ∧ c ≤ '9' then some (c.toNat - '0'.toNat)
  else if 'a' ≤ c ∧ c ≤ 'f' then some (c.toNat - 'a'.toNat + 10)
  else if 'A' ≤ c ∧ c ≤ 'F' then some (c.toNat - 'A'.toNat + 10)
  else none

/-- How Go's `encoding/json` (default `json.Marshal`, HTML escaping on)
emits one character of a string: `"` `\` `\n` `\r` `\t` get two-character
escapes; other control characters, DEL, and the HTML-sensitive `<` `>` `&`
become `\u00xx`; U+2028 and U+2029 become ` `/` `; everything
else is emitted verbatim. -/
def encodeJSONChar (c : Char) : List Char :=
  if c = '"' then ['\\', '"']
  else if c = '\\' then ['\\', '\\']
  else if c = '\n' then ['\\', 'n']
  else if c = '\r' then ['\\', 'r']
  else if c = '\t' then ['\\', 't']
  else if c = '<' ∨ c = '>' ∨ c = '&' ∨ c.toNat < 0x20 ∨ c.toNat = 0x7F then
    ['\\', 'u', '0', '0', hexDigit (c.toNat / 16), hexDigit (c.toNat % 16)]
  else if c.toNat = 0x2028 ∨ c.toNat = 0x2029 then
    ['\\', 'u', '2', '0', '2', hexDigit (c.toNat % 16)]
  else [c]

/-- The body (between the quotes) of Go's JSON encoding of a string. -/
def encodeJSONString : List Char → List Char
  | [] => []
  | c :: cs => encodeJSONChar c ++ encodeJSONString cs

/-- Go's `json.Unmarshal` of a JSON string into a Go `string`, restricted to
the text after the opening quote: consumes characters up to the closing
quote, decoding escapes the way `encoding/json`'s unquote does (including
surrogate-pair handling, with lone surrogates replaced by U+FFFD), rejects
(`none`) malformed escapes, raw control characters, an unterminated string,
and trailing bytes after the closing quote. The `fuel` argument only makes
the recursion structural: every step consumes at least one character and
passes `fuel - 1`, so any `fuel` at least the input length (as supplied by
`decodeJSONStringBody`) never runs out before the input does, and at
`fuel = 0` the input is empty, which is an unterminated string (`none`)
anyway. -/
def decodeJSONBodyAux : Nat → List Char → Option (List Char)
  | 0, _ => none
  | fuel + 1, l =>
    match l with
    | [] => none
    | c :: rest =>
    if c = '"' then
      if rest = [] then some [] else none
    else if c = '\\' then
      match rest with
      | [] => none
      | e :: rest2 =>
        if e = '"' then (decodeJSONBodyAux fuel rest2).map ('"' :: ·)
        else if e = '\\' then (decodeJSONBodyAux fuel rest2).map ('\\' :: ·)
        else if e = '/' then (decodeJSONBodyAux fuel rest2).map ('/' :: ·)
        else if e = 'b' then (decodeJSONBodyAux fuel rest2).map (Char.ofNat 0x8 :: ·)
        else if e = 'f' then (decodeJSONBodyAux fuel rest2).map (Char.ofNat 0xC :: ·)
        else if e = 'n' then (decodeJSONBodyAux fuel rest2).map ('\n' :: ·)
        else if e = 'r' then (decodeJSONBodyAux fuel rest2).map ('\r' :: ·)
        else if e = 't' then (decodeJSONBodyAux fuel rest2).map ('\t' :: ·)
        else if e = 'u' then
          match rest2 with
          | a :: b :: c2 :: d :: rest3 =>
            match hexVal a, hexVal b, hexVal c2, hexVal d with
            | some va, some vb, some vc, some vd =>
              let n := ((va * 16 + vb) * 16 + vc) * 16 + vd
              if 0xD800 ≤ n ∧ n ≤ 0xDBFF then
                match rest3 with
                | '\\' :: 'u' :: a2 :: b2 :: c3 :: d2 :: rest4 =>
                  match hexVal a2, hexVal b2, hexVal c3, hexVal d2 with
                  | some wa, some wb, some wc, some wd =>
                    let m := ((wa * 16 + wb) * 16 + wc) * 16 + wd
                    if 0xDC00 ≤ m ∧ m ≤ 0xDFFF then
                      (decodeJSONBodyAux fuel rest4).map
                        (Char.ofNat (0x10000 + (n - 0xD800) * 0x400 + (m - 0xDC00)) :: ·)
                    else (decodeJSONBodyAux fuel rest3).map (Char.ofNat 0xFFFD :: ·)
                  | _, _, _, _ => (decodeJSONBodyAux fuel rest3).map (Char.ofNat 0xFFFD :: ·)
                | _ => (decodeJSONBodyAux fuel rest3).map (Char.ofNat 0xFFFD :: ·)
              else if 0xDC00 ≤ n ∧ n ≤ 0xDFFF then
                (decodeJSONBodyAux fuel rest3).map (Char.ofNat 0xFFFD :: ·)
              else
                (decodeJSONBodyAux fuel rest3).map (Char.ofNat n :: ·)
            | _, _, _, _ => none
          | _ => none
        else none
    else if c.toNat < 0x20 then none
    else (decodeJSONBodyAux fuel rest).map (c :: ·)

/-- The JSON string-body decoder at a sufficient fuel (see
`decodeJSONBodyAux`). -/
def decodeJSONStringBody (l : List Char) : Option (List Char) :=
  decodeJSONBodyAux l.length l

/-- Embedding of `MaskedString.MarshalJSON` (src/string.go lines 143-145):
`json.Marshal(s.string)` — the true underlying string, quoted and escaped;
the masked rendering plays no part. -/
def MaskedString.MarshalJSON (s : MaskedString) : List Char :=
  '"' :: (encodeJSONString s.str ++ ['"'])

/-- Embedding of `MaskedString.UnmarshalJSON` (src/string.go lines 149-157): decode the
JSON string and store it as the underlying value, leaving `Config` as it
was; a decode error (`none`) leaves the receiver unchanged in Go. -/
def MaskedString.UnmarshalJSON (s : MaskedString) (data : List Char) : Option MaskedString :=
  match data with
  | '"' :: body => (decodeJSONStringBody body).map (fun str => { s with str := str })
  | _ => none

theorem waitLoop_never (ctx : Ctx ε) (condition : Nat → Bool × Option ε) (mt : Nat)
    (hcond : ∀ n, condition n = (false, none))
    (hdb : ∀ n, ctx.doneBefore n = false) :
    ∀ rem tries, waitLoop ctx condition mt rem tries = (rem, some (.notMet mt)) := by
  intro rem
  induction rem with
  | zero => intro tries; rfl
  | succ rem ih =>
    intro tries
    simp [waitLoop, hdb (tries + 1), hcond (tries + 1), ih (tries + 1)]

theorem waitUntil_never (ctx : Ctx ε) (interval maxTries : Nat)
    (condition : Nat → Bool × Option ε)
    (hcond : ∀ n, condition n = (false, none))
    (hdb : ∀ n, ctx.doneBefore n = false) :
    waitUntil ctx interval maxTries condition =
      (if maxTries = 0 then 1 else maxTries,
       some (.notMet (if maxTries = 0 then 1 else maxTries))) := by
  have h1 : 1 ≤ if maxTries = 0 then 1 else maxTries := by split <;> omega
  simp only [waitUntil, hcond 1,
    waitLoop_never ctx condition _ hcond hdb (_ - 1) 1, Prod.mk.injEq]
  exact ⟨by omega, trivial⟩

theorem waitLoop_err (ctx : Ctx ε) (condition : Nat → Bool × Option ε) (mt k : Nat) (e : ε)
    (hk : (condition k).2 = some e) :
    ∀ rem tries, tries < k → k ≤ tries + rem →
      (∀ j, tries < j → j < k → condition j = (false, none)) →
      (∀ j, tries < j → j ≤ k → ctx.doneBefore j = false) →
      waitLoop ctx condition mt rem tries = (k - tries, some (.condFailedOnTry k e)) := by
  intro rem
  induction rem with
  | zero => intro tries h1 h2 _ _; omega
  | succ rem ih =>
    intro tries h1 h2 hc hdb
    have hdb1 : ctx.doneBefore (tries + 1) = false := hdb _ (by omega) (by omega)
    by_cases hek : tries + 1 = k
    · have hek2 : (condition (tries + 1)).2 = some e := by rw [hek]; exact hk
      rcases hcc : condition (tries + 1) with ⟨b, oe⟩
      rw [hcc] at hek2
      simp only at hek2
      subst hek2
      simp [waitLoop, hdb1, hcc, Prod.mk.injEq]
      omega
    · have hfn : condition (tries + 1) = (false, none) := hc _ (by omega) (by omega)
      have hrec := ih (tries + 1) (by omega) (by omega)
        (fun j ha hb => hc j (by omega) hb) (fun j ha hb => hdb j (by omega) hb)
      simp [waitLoop, hdb1, hfn, hrec, Prod.mk.injEq]
      omega

theorem waitLoop_succ_at (ctx : Ctx ε) (condition : Nat → Bool × Option ε) (mt k : Nat)
    (hk : condition k = (true, none)) :
    ∀ rem tries, tries < k → k ≤ tries + rem →
      (∀ j, tries < j → j < k → condition j = (false, none)) →
      (∀ j, tries < j → j ≤ k → ctx.doneBefore j = false) →
      waitLoop ctx condition mt rem tries = (k - tries, none) := by
  intro rem
  induction rem with
  | zero => intro tries h1 h2 _ _; omega
  | succ rem ih =>
    intro tries h1 h2 hc hdb
    have hdb1 : ctx.doneBefore (tries + 1) = false := hdb _ (by omega) (by omega)
    by_cases hek : tries + 1 = k
    · rw [← hek] at hk
      simp [waitLoop, hdb1, hk, Prod.mk.injEq]
      omega
    · have hfn : condition (tries + 1) = (false, none) := hc _ (by omega) (by omega)
      have hrec := ih (tries + 1) (by omega) (by omega)
        (fun j ha hb => hc j (by omega) hb) (fun j ha hb => hdb j (by omega) hb)
      simp [waitLoop, hdb1, hfn, hrec, Prod.mk.injEq]
      omega

theorem waitLoop_cancel (ctx : Ctx ε) (condition : Nat → Bool × Option ε) (mt t : Nat)
    (hdone : ctx.doneBefore (t + 1) = true) :
    ∀ rem tries, tries ≤ t → t < tries + rem →
      (∀ j, tries < j → j ≤ t → condition j = (false, none)) →
      (∀ j, tries < j → j ≤ t → ctx.doneBefore j = false) →
      waitLoop ctx condition mt rem tries = (t - tries, some (.canceled ctx.reason)) := by
  intro rem
  induction rem with
  | zero => intro tries h1 h2 _ _; omega
  | succ rem ih =>
    intro tries h1 h2 hc hdb
    by_cases het : tries = t
    · subst het
      simp [waitLoop, hdone]
    · have hdb1 : ctx.doneBefore (tries + 1) = false := hdb _ (by omega) (by omega)
      have hfn : condition (tries + 1) = (false, none) := hc _ (by omega) (by omega)
      have hrec := ih (tries + 1) (by omega) (by omega)
        (fun j ha hb => hc j (by omega) hb) (fun j ha hb => hdb j (by omega) hb)
      simp [waitLoop, hdb1, hfn, hrec, Prod.mk.injEq]
      omega

theorem waitUntil_err_at (ctx : Ctx ε) (interval maxTries : Nat)
    (condition : Nat → Bool × Option ε) (k : Nat) (e : ε)
    (hk2 : 2 ≤ k) (hkN : k ≤ if maxTries = 0 then 1 else maxTries)
    (hc : ∀ j, 1 ≤ j → j < k → condition j = (false, none))
    (hdb : ∀ j, 2 ≤ j → j ≤ k → ctx.doneBefore j = false)
    (hke : (condition k).2 = some e) :
    waitUntil ctx interval maxTries condition = (k, some (.condFailedOnTry k e)) := by
  have hc1 : condition 1 = (false, none) := hc 1 (by omega) (by omega)
  have hloop := waitLoop_err ctx condition (if maxTries = 0 then 1 else maxTries) k e hke
    ((if maxTries = 0 then 1 else maxTries) - 1) 1 (by omega) (by omega)
    (fun j ha hb => hc j (by omega) hb) (fun j ha hb => hdb j (by omega) hb)
  simp only [waitUntil, hc1, hloop, Prod.mk.injEq]
  exact ⟨by omega, trivial⟩

theorem waitUntil_succ_at (ctx : Ctx ε) (interval maxTries : Nat)
    (condition : Nat → Bool × Option ε) (k : Nat)
    (hk1 : 1 ≤ k) (hkN : k ≤ if maxTries = 0 then 1 else maxTries)
    (hc : ∀ j, 1 ≤ j → j < k → condition j = (false, none))
    (hdb : ∀ j, 2 ≤ j → j ≤ k → ctx.doneBefore j = false)
    (hk : condition k = (true, none)) :
    waitUntil ctx interval maxTries condition = (k, none) := by
  by_cases h1 : k = 1
  · subst h1
    simp [waitUntil, hk]
  · have hc1 : condition 1 = (false, none) := hc 1 (by omega) (by omega)
    have hloop := waitLoop_succ_at ctx condition (if maxTries = 0 then 1 else maxTries) k hk
      ((if maxTries = 0 then 1 else maxTries) - 1) 1 (by omega) (by omega)
      (fun j ha hb => hc j (by omega) hb) (fun j ha hb => hdb j (by omega) hb)
    simp only [waitUntil, hc1, hloop, Prod.mk.injEq]
    exact ⟨by omega, trivial⟩

/-- C1: for every condition that never reports success and never reports an
error (and, for the typed poll forms, every probe that never succeeds), and
every interval and cancellation-free context, `waitUntil` and the poll forms
built on it invoke the condition exactly `maxTries` times (with
`maxTries = 0` normalized to 1) and return the exhaustion error whose
message is "condition not met after N tries" for the normalized count N. -/
theorem c1_exhaustion_after_max_tries (ctx : Ctx ε) (interval maxTries : Nat)
    (r : ε → String) (condition : Nat → Bool × Option ε)
    (op : Nat → Bool) (opE : Nat → Option ε) (opR : Nat → Option α × Option ε)
    (hcond : ∀ n, condition n = (false, none))
    (hop : ∀ n, op n = false)
    (hopE : ∀ n, opE n ≠ none)
    (hopR : ∀ n, (opR n).1 = none ∨ (opR n).2 ≠ none)
    (hdb : ∀ n, ctx.doneBefore n = false) :
    waitUntil ctx interval maxTries condition =
      (if maxTries = 0 then 1 else maxTries,
       some (.notMet (if maxTries = 0 then 1 else maxTries))) ∧
    WaitFor ctx interval maxTries op =
      (if maxTries = 0 then 1 else maxTries,
       some (.notMet (if maxTries = 0 then 1 else maxTries))) ∧
    WaitForNilError ctx interval maxTries opE =
      (if maxTries = 0 then 1 else maxTries,
       some (.notMet (if maxTries = 0 then 1 else maxTries))) ∧
    WaitForReturn ctx interval maxTries opR =
      (if maxTries = 0 then 1 else maxTries,
       Except.error (.failedToGet (.notMet (if maxTries = 0 then 1 else maxTries)))) ∧
    WaitError.message r (.notMet (if maxTries = 0 then 1 else maxTries)) =
      "condition not met after " ++
        Nat.repr (if maxTries = 0 then 1 else maxTries) ++ " tries" := by
  refine ⟨waitUntil_never ctx interval maxTries condition hcond hdb, ?_, ?_, ?_, rfl⟩
  · exact waitUntil_never ctx interval maxTries _ (fun n => by simp [hop n]) hdb
  · refine waitUntil_never ctx interval maxTries _ (fun n => ?_) hdb
    rcases h : opE n with _ | e
    · exact absurd h (hopE n)
    · rfl
  · have hrc : ∀ n, returnCondition opR n = (false, none) := by
      intro n
      rcases h : opR n with ⟨ov, oe⟩
      rcases hopR n with h1 | h1 <;> rw [h] at h1
      · simp only at h1
        subst h1
        cases oe <;> simp [returnCondition, h]
      · simp only at h1
        cases oe
        · exact absurd rfl h1
        · simp [returnCondition, h]
    simp only [WaitForReturn, waitUntil_never ctx interval maxTries _ hrc hdb]

/-- C2: `waitUntil` invokes its condition once immediately: if the first
invocation reports an error, the poll stops after exactly one invocation
with that error wrapped as "condition failed with error"; if it reports
success, the poll succeeds after exactly one invocation; and if any later
invocation k reports an error, the poll stops at invocation k with the
error wrapped as "condition failed with error on try k". -/
theorem c2_immediate_attempt_and_error_abort (ctx : Ctx ε) (interval maxTries : Nat)
    (condition : Nat → Bool × Option ε) :
    (∀ e, (condition 1).2 = some e →
      waitUntil ctx interval maxTries condition = (1, some (.condFailed e))) ∧
    (condition 1 = (true, none) →
      waitUntil ctx interval maxTries condition = (1, none)) ∧
    (∀ k e, 2 ≤ k → k ≤ (if maxTries = 0 then 1 else maxTries) →
      (∀ j, 1 ≤ j → j < k → condition j = (false, none)) →
      (∀ j, 2 ≤ j → j ≤ k → ctx.doneBefore j = false) →
      (condition k).2 = some e →
      waitUntil ctx interval maxTries condition = (k, some (.condFailedOnTry k e))) := by
  refine ⟨?_, ?_, ?_⟩
  · intro e he
    rcases hc1 : condition 1 with ⟨b, oe⟩
    rw [hc1] at he
    simp only at he
    subst he
    simp [waitUntil, hc1]
  · intro h
    simp [waitUntil, h]
  · intro k e hk2 hkN hc hdb hke
    exact waitUntil_err_at ctx interval maxTries condition k e hk2 hkN hc hdb hke

/-- C4: if the cancellation signal becomes done strictly before the interval
preceding attempt t+1 elapses, while attempts 1..t all failed without error,
the poll stops with the cancellation error wrapping the context's reason
("waiting canceled: ..."), and the condition is invoked exactly t times. -/
theorem c4_cancellation_stops_polling (ctx : Ctx ε) (interval maxTries : Nat)
    (r : ε → String) (condition : Nat → Bool × Option ε) (t : Nat)
    (ht1 : 1 ≤ t) (htN : t < if maxTries = 0 then 1 else maxTries)
    (hc : ∀ j, 1 ≤ j → j ≤ t → condition j = (false, none))
    (hdb : ∀ j, 2 ≤ j → j ≤ t → ctx.doneBefore j = false)
    (hdone : ctx.doneBefore (t + 1) = true) :
    waitUntil ctx interval maxTries condition = (t, some (.canceled ctx.reason)) ∧
    WaitError.message r (.canceled ctx.reason) = "waiting canceled: " ++ r ctx.reason := by
  refine ⟨?_, rfl⟩
  have hc1 : condition 1 = (false, none) := hc 1 (by omega) (by omega)
  have hloop := waitLoop_cancel ctx condition (if maxTries = 0 then 1 else maxTries) t hdone
    ((if maxTries = 0 then 1 else maxTries) - 1) 1 (by omega) (by omega)
    (fun j ha hb => hc j (by omega) hb) (fun j ha hb => hdb j (by omega) hb)
  simp only [waitUntil, hc1, hloop, Prod.mk.injEq]
  exact ⟨by omega, trivial⟩

/-- C3: for `waitUntil` and each poll form built on it, `maxTries = 0`
behaves identically to `maxTries = 1`, and in that case the condition is
invoked exactly once. -/
theorem c3_zero_max_tries_equals_one (ctx : Ctx ε) (interval : Nat)
    (condition : Nat → Bool × Option ε) (op : Nat → Bool) (opE : Nat → Option ε)
    (opR : Nat → Option α × Option ε) :
    (waitUntil ctx interval 0 condition = waitUntil ctx interval 1 condition ∧
      (waitUntil ctx interval 0 condition).1 = 1) ∧
    (WaitFor ctx interval 0 op = WaitFor ctx interval 1 op ∧
      (WaitFor ctx interval 0 op).1 = 1) ∧
    (WaitForNilError ctx interval 0 opE = WaitForNilError ctx interval 1 opE ∧
      (WaitForNilError ctx interval 0 opE).1 = 1) ∧
    (WaitForReturn ctx interval 0 opR = WaitForReturn ctx interval 1 opR ∧
      (WaitForReturn ctx interval 0 opR).1 = 1) := by
  have huntil : ∀ cond : Nat → Bool × Option ε, (waitUntil ctx interval 0 cond).1 = 1 := by
    intro cond
    rcases h : cond 1 with ⟨b, oe⟩
    cases b <;> cases oe <;> simp [waitUntil, h, waitLoop]
  refine ⟨⟨rfl, huntil condition⟩, ⟨rfl, huntil _⟩, ⟨rfl, huntil _⟩, ⟨rfl, ?_⟩⟩
  have := huntil (returnCondition opR)
  unfold WaitForReturn
  rcases h : (waitUntil ctx interval 0 (returnCondition opR)).2 with _ | e <;>
    simp [h, ← this]

/-- C5: in `WaitForReturn`, an attempt counts as success exactly when the
probe returns a non-nil value together with a nil error; a probe error or a
nil value each cause a retry instead of aborting; and when attempt K is the
first success, the poll returns the value produced by the probe on attempt
K, after exactly K invocations. -/
theorem c5_wait_for_return_success_criteria (ctx : Ctx ε) (interval maxTries : Nat)
    (opR : Nat → Option α × Option ε) (K : Nat) (v : α)
    (hK1 : 1 ≤ K) (hKN : K ≤ if maxTries = 0 then 1 else maxTries)
    (hfail : ∀ j, 1 ≤ j → j < K → (opR j).1 = none ∨ (opR j).2 ≠ none)
    (hdb : ∀ j, 2 ≤ j → j ≤ K → ctx.doneBefore j = false)
    (hsucc : opR K = (some v, none)) :
    WaitForReturn ctx interval maxTries opR = (K, Except.ok (some v)) ∧
    (∀ n, (returnCondition opR n).2 = none) ∧
    (∀ n, (returnCondition opR n).1 = true ↔ ((opR n).1 ≠ none ∧ (opR n).2 = none)) := by
  have hrcfail : ∀ j, 1 ≤ j → j < K → returnCondition opR j = (false, none) := by
    intro j h1 h2
    rcases h : opR j with ⟨ov, oe⟩
    rcases hfail j h1 h2 with hf | hf <;> rw [h] at hf <;> simp only at hf
    · subst hf
      cases oe <;> simp [returnCondition, h]
    · cases oe
      · exact absurd rfl hf
      · simp [returnCondition, h]
  have hrcK : returnCondition opR K = (true, none) := by
    simp [returnCondition, hsucc]
  have huntil := waitUntil_succ_at ctx interval maxTries (returnCondition opR) K
    hK1 hKN hrcfail hdb hrcK
  refine ⟨?_, ?_, ?_⟩
  · simp [WaitForReturn, huntil, hsucc]
  · intro n
    rcases h : opR n with ⟨ov, oe⟩
    cases ov <;> cases oe <;> simp [returnCondition, h]
  · intro n
    rcases h : opR n with ⟨ov, oe⟩
    cases ov <;> cases oe <;> simp [returnCondition, h]

/-- C8: the wait-for-files operation with an empty path set returns the
usage error "no files specified" (with zero probe attempts), never
immediate success, for every context, interval and maxTries. -/
theorem c8_empty_file_set_usage_error (ctx : Ctx ε) (interval max : Nat)
    (fs : Nat → String → Bool) (r : ε → String) :
    WaitForFiles ctx interval max ([] : List String) fs = (0, some .noFiles) ∧
    (WaitForFiles ctx interval max ([] : List String) fs).2 ≠ none ∧
    FileWaitError.message r (.noFiles : FileWaitError ε) = "no files specified" := by
  refine ⟨rfl, ?_, rfl⟩
  simp [WaitForFiles]

theorem c1_exhaustion_after_max_tries_witness :
    waitUntil (⟨fun _ => false, 0⟩ : Ctx Nat) 5 3 (fun _ => (false, none)) =
      (3, some (.notMet 3)) ∧
    WaitForReturn (⟨fun _ => false, 0⟩ : Ctx Nat) 5 3
        (fun _ => ((none : Option Nat), some 0)) =
      (3, Except.error (.failedToGet (.notMet 3))) := by
  have h := c1_exhaustion_after_max_tries (⟨fun _ => false, 0⟩ : Ctx Nat) 5 3
    (fun _ => "e") (fun _ => (false, none)) (fun _ => false) (fun _ => some 0)
    (fun _ => ((none : Option Nat), some 0)) (fun _ => rfl) (fun _ => rfl)
    (fun _ => by simp) (fun _ => Or.inl rfl) (fun _ => rfl)
  exact ⟨h.1, h.2.2.2.1⟩

theorem c2_immediate_attempt_and_error_abort_witness :
    waitUntil (⟨fun _ => false, 0⟩ : Ctx Nat) 1 4
        (fun n => if n = 3 then (false, some 7) else (false, none)) =
      (3, some (.condFailedOnTry 3 7)) ∧
    waitUntil (⟨fun _ => false, 0⟩ : Ctx Nat) 1 4 (fun _ => (true, some 9)) =
      (1, some (.condFailed 9)) := by
  constructor
  · exact (c2_immediate_attempt_and_error_abort (⟨fun _ => false, 0⟩ : Ctx Nat) 1 4
      (fun n => if n = 3 then (false, some 7) else (false, none))).2.2 3 7
      (by decide) (by decide)
      (fun j h1 h2 => by interval_cases j <;> rfl)
      (fun j h1 h2 => rfl) rfl
  · exact (c2_immediate_attempt_and_error_abort (⟨fun _ => false, 0⟩ : Ctx Nat) 1 4
      (fun _ => (true, some 9))).1 9 rfl

theorem c4_cancellation_stops_polling_witness :
    waitUntil (⟨fun n => n == 3, 42⟩ : Ctx Nat) 1 5 (fun _ => (false, none)) =
      (2, some (.canceled 42)) ∧
    WaitError.message (fun e => Nat.repr e) (.canceled (42 : Nat)) =
      "waiting canceled: 42" :=
  c4_cancellation_stops_polling (⟨fun n => n == 3, 42⟩ : Ctx Nat) 1 5
    (fun e => Nat.repr e) (fun _ => (false, none)) 2 (by decide) (by decide)
    (fun j h1 h2 => rfl) (fun j h1 h2 => by interval_cases j; rfl) rfl

theorem c5_wait_for_return_success_criteria_witness :
    WaitForReturn (⟨fun _ => false, 0⟩ : Ctx Nat) 1 5
        (fun n => if n = 1 then ((none : Option Nat), some 8)
                  else if n = 2 then (none, none)
                  else (some 77, none)) =
      (3, Except.ok (some 77)) :=
  (c5_wait_for_return_success_criteria (⟨fun _ => false, 0⟩ : Ctx Nat) 1 5
    (fun n => if n = 1 then ((none : Option Nat), some 8)
              else if n = 2 then (none, none)
              else (some 77, none)) 3 77 (by decide) (by decide)
    (fun j h1 h2 => by interval_cases j <;> simp)
    (fun j h1 h2 => rfl) rfl).1

/-- C6: counter-evidence for the reveal-suppression claim. With underlying
"abcdefghij", PrefixCount = 3, SuffixCount = 3, MinMask = 1,
ObfuscateLength with ObfuscatedLength = 4, the number of characters left
masked is 4 - 6, i.e. none at all, so the minimum-mask floor of 1 should
force both reveal counts to 0 and yield "****"; instead `charsToMask`
underflows to 2^64 - 2 in uint arithmetic, the floor comparison fails, the
reveal counts stay at 3, and `String` panics in `strings.Repeat` on the
underflowed padding count rather than returning an all-mask rendering. -/
theorem c6_min_mask_floor_defeated_by_underflow :
    MaskedString.String
        ⟨['a','b','c','d','e','f','g','h','i','j'], ⟨3, 3, [], 1, true, 4⟩⟩ = none ∧
    MaskedString.charsToMask
        ⟨['a','b','c','d','e','f','g','h','i','j'], ⟨3, 3, [], 1, true, 4⟩⟩ = 2 ^ 64 - 2 ∧
    MaskedString.revealPrefixCount
        ⟨['a','b','c','d','e','f','g','h','i','j'], ⟨3, 3, [], 1, true, 4⟩⟩ = 3 ∧
    MaskedString.revealSuffixCount
        ⟨['a','b','c','d','e','f','g','h','i','j'], ⟨3, 3, [], 1, true, 4⟩⟩ = 3 := by
  refine ⟨?_, ?_, ?_, ?_⟩ <;> decide

/-- C7: counter-evidence for the padding-clamp claim. With underlying
"abcdefghij", PrefixCount = 3, SuffixCount = 3 (each individually at most
the effective length 4) and ObfuscatedLength = 4 < 3 + 3, the padding count
`effectiveLength - (prefixCount + suffixCount)` underflows in uint
arithmetic to 2^64 - 2, `int(paddingCount)` is -2, and `strings.Repeat`
panics on the negative count instead of `String` returning a string. -/
theorem c7_padding_count_underflow_is_not_clamped :
    MaskedString.String
        ⟨['a','b','c','d','e','f','g','h','i','j'], ⟨3, 3, [], 0, true, 4⟩⟩ = none ∧
    intOfUint (usub
        (MaskedString.effectiveLength
          ⟨['a','b','c','d','e','f','g','h','i','j'], ⟨3, 3, [], 0, true, 4⟩⟩)
        (uadd
          (MaskedString.revealPrefixCount
            ⟨['a','b','c','d','e','f','g','h','i','j'], ⟨3, 3, [], 0, true, 4⟩⟩)
          (MaskedString.revealSuffixCount
            ⟨['a','b','c','d','e','f','g','h','i','j'], ⟨3, 3, [], 0, true, 4⟩⟩))) = -2 ∧
    goRepeat ['*'] (-2) = none := by
  refine ⟨?_, ?_, ?_⟩ <;> decide

/-- C10: the masked rendering depends on the secret only through its length
and the revealed prefix and suffix: for one configuration and two
underlying strings of equal length agreeing on their first `PrefixCount`
and last `SuffixCount` characters, `String` renders identically (including
panicking identically). -/
theorem c10_rendering_depends_only_on_revealed (cfg : MaskedConfig) (s t : List Char)
    (hlen : s.length = t.length)
    (hpre : s.take cfg.PrefixCount = t.take cfg.PrefixCount)
    (hsuf : s.drop (s.length - cfg.SuffixCount) = t.drop (t.length - cfg.SuffixCount)) :
    MaskedString.String ⟨s, cfg⟩ = MaskedString.String ⟨t, cfg⟩ := by
  have heff : MaskedString.effectiveLength ⟨s, cfg⟩ = MaskedString.effectiveLength ⟨t, cfg⟩ := by
    simp [MaskedString.effectiveLength, hlen]
  have hcp : MaskedString.clampedPrefixCount ⟨s, cfg⟩
      = MaskedString.clampedPrefixCount ⟨t, cfg⟩ := by
    simp only [MaskedString.clampedPrefixCount, heff]
  have hcq : MaskedString.clampedSuffixCount ⟨s, cfg⟩
      = MaskedString.clampedSuffixCount ⟨t, cfg⟩ := by
    simp only [MaskedString.clampedSuffixCount, heff]
  have htot : MaskedString.totalUnmasked ⟨s, cfg⟩ = MaskedString.totalUnmasked ⟨t, cfg⟩ := by
    simp only [MaskedString.totalUnmasked, hcp, hcq]
  have hctm : MaskedString.charsToMask ⟨s, cfg⟩ = MaskedString.charsToMask ⟨t, cfg⟩ := by
    simp only [MaskedString.charsToMask, heff, htot]
  have hrevP : MaskedString.revealPrefixCount ⟨s, cfg⟩
      = MaskedString.revealPrefixCount ⟨t, cfg⟩ := by
    simp only [MaskedString.revealPrefixCount, hctm, htot, hcp, hlen]
  have hrevQ : MaskedString.revealSuffixCount ⟨s, cfg⟩
      = MaskedString.revealSuffixCount ⟨t, cfg⟩ := by
    simp only [MaskedString.revealSuffixCount, hctm, htot, hcq, hlen]
  have hPcases : MaskedString.revealPrefixCount ⟨s, cfg⟩ = 0 ∨
      MaskedString.revealPrefixCount ⟨s, cfg⟩ = cfg.PrefixCount := by
    unfold MaskedString.revealPrefixCount MaskedString.clampedPrefixCount
    split_ifs <;> simp
  have hQcases : MaskedString.revealSuffixCount ⟨s, cfg⟩ = 0 ∨
      MaskedString.revealSuffixCount ⟨s, cfg⟩ = cfg.SuffixCount := by
    unfold MaskedString.revealSuffixCount MaskedString.clampedSuffixCount
    split_ifs <;> simp
  have htake : s.take (MaskedString.revealPrefixCount ⟨s, cfg⟩)
      = t.take (MaskedString.revealPrefixCount ⟨s, cfg⟩) := by
    rcases hPcases with h | h <;> rw [h]
    · simp
    · exact hpre
  have hdrop : s.drop (s.length - MaskedString.revealSuffixCount ⟨s, cfg⟩)
      = t.drop (s.length - MaskedString.revealSuffixCount ⟨s, cfg⟩) := by
    rcases hQcases with h | h <;> rw [h]
    · simp [hlen]
    · rw [← hlen] at hsuf
      exact hsuf
  simp only [MaskedString.String, ← hrevP, ← hrevQ, heff, ← hlen, htake, hdrop]

theorem c10_rendering_depends_only_on_revealed_witness :
    MaskedString.String ⟨['a','b','c','d'], ⟨1, 1, [], 0, false, 0⟩⟩ =
      MaskedString.String ⟨['a','x','y','d'], ⟨1, 1, [], 0, false, 0⟩⟩ :=
  c10_rendering_depends_only_on_revealed ⟨1, 1, [], 0, false, 0⟩
    ['a','b','c','d'] ['a','x','y','d'] rfl rfl rfl

theorem hexVal_hexDigit : ∀ n, n < 16 → hexVal (hexDigit n) = some n := by decide

theorem decodeAux_encodeChar (c : Char) (F : Nat) (r : List Char) :
    decodeJSONBodyAux (F + 1) (encodeJSONChar c ++ r)
      = (decodeJSONBodyAux F r).map (c :: ·) := by
  unfold encodeJSONChar
  by_cases h1 : c = '"'
  · subst h1; rw [if_pos rfl]; rfl
  rw [if_neg h1]
  by_cases h2 : c = '\\'
  · subst h2; rw [if_pos rfl]; rfl
  rw [if_neg h2]
  by_cases h3 : c = '\n'
  · subst h3; rw [if_pos rfl]; rfl
  rw [if_neg h3]
  by_cases h4 : c = '\r'
  · subst h4; rw [if_pos rfl]; rfl
  rw [if_neg h4]
  by_cases h5 : c = '\t'
  · subst h5; rw [if_pos rfl]; rfl
  rw [if_neg h5]
  by_cases h6 : c = '<' ∨ c = '>' ∨ c = '&' ∨ c.toNat < 0x20 ∨ c.toNat = 0x7F
  · rw [if_pos h6]
    rcases h6 with h | h | h | h | h
    · subst h; rfl
    · subst h; rfl
    · subst h; rfl
    · obtain ⟨t, ht, rfl⟩ : ∃ t, t < 0x20 ∧ c = Char.ofNat t :=
        ⟨c.toNat, h, (Char.ofNat_toNat c).symm⟩
      interval_cases t <;> rfl
    · obtain ⟨t, ht, rfl⟩ : ∃ t, t = 0x7F ∧ c = Char.ofNat t :=
        ⟨c.toNat, h, (Char.ofNat_toNat c).symm⟩
      subst ht; rfl
  rw [if_neg h6]
  by_cases h7 : c.toNat = 0x2028 ∨ c.toNat = 0x2029
  · rw [if_pos h7]
    obtain ⟨t, ht, rfl⟩ : ∃ t, (t = 0x2028 ∨ t = 0x2029) ∧ c = Char.ofNat t :=
      ⟨c.toNat, h7, (Char.ofNat_toNat c).symm⟩
    rcases ht with rfl | rfl <;> rfl
  rw [if_neg h7]
  have hctrl : ¬ c.toNat < 0x20 := fun hlt => h6 (Or.inr (Or.inr (Or.inr (Or.inl hlt))))
  show decodeJSONBodyAux (F + 1) (c :: r) = _
  simp only [decodeJSONBodyAux]
  rw [if_neg h1, if_neg h2, if_neg hctrl]

theorem encodeJSONChar_length_pos (c : Char) : 1 ≤ (encodeJSONChar c).length := by
  unfold encodeJSONChar
  split_ifs <;> simp

theorem length_le_encodeJSONString (s : List Char) :
    s.length ≤ (encodeJSONString s).length := by
  induction s with
  | nil => simp [encodeJSONString]
  | cons c cs ih =>
    simp only [encodeJSONString, List.length_append, List.length_cons]
    have := encodeJSONChar_length_pos c
    omega

theorem decodeAux_encodeString (s : List Char) :
    ∀ F, s.length ≤ F →
      decodeJSONBodyAux (F + 1) (encodeJSONString s ++ ['"']) = some s := by
  induction s with
  | nil => intro F _; rfl
  | cons c cs ih =>
    intro F hF
    simp only [encodeJSONString, List.append_assoc]
    rw [decodeAux_encodeChar]
    obtain ⟨F', rfl⟩ : ∃ F', F = F' + 1 := by
      simp only [List.length_cons] at hF
      exact ⟨F - 1, by omega⟩
    rw [ih F' (by simp only [List.length_cons] at hF; omega)]
    rfl

theorem decode_encode_roundtrip (s : List Char) :
    decodeJSONStringBody (encodeJSONString s ++ ['"']) = some s := by
  unfold decodeJSONStringBody
  rw [List.length_append, List.length_singleton]
  exact decodeAux_encodeString s (encodeJSONString s).length (length_le_encodeJSONString s)

/-- C9: JSON serialization of a `MaskedString` produces the true underlying
string (independent of the masking configuration, never the masked
rendering), and deserializing that output yields a `MaskedString` whose
unmasked accessor returns the original string exactly: marshal followed by
unmarshal is the identity on the underlying value. -/
theorem c9_marshal_unmarshal_roundtrip (ms s0 : MaskedString) :
    MaskedString.UnmarshalJSON s0 (MaskedString.MarshalJSON ms)
      = some ⟨ms.str, s0.Config⟩ ∧
    (MaskedString.UnmarshalJSON s0 (MaskedString.MarshalJSON ms)).map
        MaskedString.UnmaskedString = some ms.UnmaskedString ∧
    (∀ cfg cfg' : MaskedConfig,
      MaskedString.MarshalJSON ⟨ms.str, cfg⟩ = MaskedString.MarshalJSON ⟨ms.str, cfg'⟩) := by
  have h : MaskedString.UnmarshalJSON s0 (MaskedString.MarshalJSON ms)
      = some ⟨ms.str, s0.Config⟩ := by
    show (decodeJSONStringBody (encodeJSONString ms.str ++ ['"'])).map _ = _
    rw [decode_encode_roundtrip]
    rfl
  exact ⟨h, by rw [h]; rfl, fun cfg cfg' => rfl⟩
